import Mathlib

/-!
Shallow embedding of the heimdall bridge daemon's event-confirmation
pipeline, checkpoint decider, span decider and checkpoint genesis
validation, translated from the Go sources:

* `bridge/pier/syncer.go` — header confirmation buffer, log filter and
  event handlers (`processHeader`, `processStakedEvent`, ...);
* the checkpointer file (`MaticCheckpointer`): `nextExpectedCheckpoint`,
  `isForcePushNeeded`;
* `bridge/pier/span.go` — `propose`, `fetchNextSpanDetails`,
  `DispatchProposal`;
* `checkpoint/types/genesis.go` — `ValidateGenesis`.

Machine integers are modelled as `Nat` (for `uint64`) and `Int` (for
`int64`) with explicit wrapping where Go's arithmetic can overflow.
-/

/-- The modulus `2^64` of Go's `uint64` arithmetic. -/
def U64MOD : Nat := 18446744073709551616

/-- Reduction into the `uint64` range. -/
def u64 (n : Nat) : Nat := n % U64MOD

/-- Go `uint64` addition (wraps at `2^64`). -/
def add64 (a b : Nat) : Nat := (a + b) % U64MOD

/-- Go `uint64` subtraction `a - b` (wraps at `2^64`). -/
def sub64 (a b : Nat) : Nat := (a % U64MOD + U64MOD - b % U64MOD) % U64MOD

/-- Go `uint64` multiplication (wraps at `2^64`). -/
def mul64 (a b : Nat) : Nat := (a * b) % U64MOD

/-- Go's `int64(x)` cast of a `uint64` value: reinterpret the bit
pattern, so values `≥ 2^63` become negative. -/
def toInt64 (v : Nat) : Int :=
  if v % U64MOD < 2 ^ 63 then (v % U64MOD : Int) else (v % U64MOD : Int) - (U64MOD : Int)

/-- Go `int64` wrap-around of an unbounded integer. -/
def wrap64s (z : Int) : Int := ((z + 2 ^ 63) % (U64MOD : Int)) - 2 ^ 63

/-- Go's `int(x)` cast of a `uint64` value on a 64-bit platform:
identical to the `int64` cast. -/
def toGoInt (v : Nat) : Int := toInt64 v

/-- Go's `strconv.ParseUint(s, 10, 64)`: decimal digits only (no
sign), non-empty, and the value must fit in 64 bits. -/
def parseUint64 (s : String) : Option Nat :=
  if s.length = 0 then none
  else if s.data.all (fun c => c.isDigit) then
    let v := s.data.foldl (fun a c => a * 10 + (c.toNat - 48)) 0
    if v < U64MOD then some v else none
  else none

/-!
Section: Checkpoint decider (`MaticCheckpointer`)

From the checkpointer source file: `nextExpectedCheckpoint` and
`isForcePushNeeded`.  Configuration values (`AvgCheckpointLength`,
`MaxCheckpointLength`) are `uint64`; the contract head's
`TimeStamp` is `uint64` and is cast to `int64` at the call site;
`time.Now().UTC().Unix()` is an `int64` threaded in as `currentTime`.
-/

/-- The checkpointer configuration read through `helper.GetConfig()`. -/
structure CheckpointConfig where
  avgCheckpointLength : Nat
  maxCheckpointLength : Nat
  childBlockInterval : Nat

/-- The contract checkpoint head returned by
`fetchCheckpointFromContract` (fields used by the decider). -/
structure CheckpointHead where
  endBlock : Nat
  timeStamp : Nat

/-- The checkpointer's `isForcePushNeeded(start, end, diff,
latestChildBlock, lastCheckpointTime)`:

```go
if end == 0 || end == start || (0 < diff && diff < helper.GetConfig().AvgCheckpointLength) {
    defaultForcePushInterval := helper.GetConfig().MaxCheckpointLength * 2 // in seconds
    if currentTime-lastCheckpointTime > int64(defaultForcePushInterval) {
        end = latestChildBlock
        isUpdated = true
    }
}
return start, end, isUpdated
```
-/
def isForcePushNeeded (cfg : CheckpointConfig) (start end_ diff latestChildBlock : Nat)
    (lastCheckpointTime currentTime : Int) : Nat × Nat × Bool :=
  if end_ = 0 ∨ end_ = start ∨ (0 < diff ∧ diff < cfg.avgCheckpointLength) then
    -- defaultForcePushInterval := MaxCheckpointLength * 2 (uint64), cast to int64
    if wrap64s (currentTime - lastCheckpointTime) > toInt64 (mul64 cfg.maxCheckpointLength 2) then
      (start, latestChildBlock, true)
    else
      (start, end_, false)
  else
    (start, end_, false)

/-- The checkpointer's `nextExpectedCheckpoint(latestChildBlock)`
after the contract head has been fetched:

```go
start = currentCheckpointHead.EndBlock
if start > 0 { start = start + 1 }
diff := latestChildBlock - start + 1
if diff > 0 {
    expectedDiff := diff - diff%helper.GetConfig().AvgCheckpointLength
    if expectedDiff > 0 { expectedDiff = expectedDiff - 1 }
    if expectedDiff > helper.GetConfig().MaxCheckpointLength-1 {
        expectedDiff = helper.GetConfig().MaxCheckpointLength - 1
    }
    end = expectedDiff + start
}
start, end, isUpdated := c.isForcePushNeeded(start, end, diff, latestChildBlock, int64(currentCheckpointHead.TimeStamp))
```

All block arithmetic is `uint64`; the subtraction in `diff` wraps.
The result is the `(start, end, updated)` triple. -/
def nextExpectedCheckpoint (cfg : CheckpointConfig) (head : CheckpointHead)
    (latestChildBlock : Nat) (currentTime : Int) : Nat × Nat × Bool :=
  let start0 := u64 head.endBlock
  let start := if start0 > 0 then add64 start0 1 else start0
  let diff := add64 (sub64 (u64 latestChildBlock) start) 1
  let end_ :=
    if diff > 0 then
      let expectedDiff := sub64 diff (diff % u64 cfg.avgCheckpointLength)
      let expectedDiff := if expectedDiff > 0 then sub64 expectedDiff 1 else expectedDiff
      let expectedDiff :=
        if expectedDiff > sub64 cfg.maxCheckpointLength 1 then sub64 cfg.maxCheckpointLength 1
        else expectedDiff
      add64 expectedDiff start
    else 0
  isForcePushNeeded cfg start end_ diff (u64 latestChildBlock)
    (toInt64 head.timeStamp) currentTime

/-!
Section: Syncer (`bridge/pier/syncer.go`)

The header confirmation buffer, the log filter and the event handlers.
Bytes (addresses, pubkeys, tx hashes) are modelled as `List Nat`;
event selectors (the log's first topic) as `Nat`; an ABI's event table
as a lookup from selector to event name.
-/

/-- In-memory queue entry of the syncer (`LightHeader`): main-chain
height and unix time of a raw header. -/
structure LightHeader where
  number : Nat
  time : Nat
deriving DecidableEq

/-- Decoded payload of a log, one variant per handled event kind.
A handler's `helper.UnpackLog` succeeds exactly when the log's payload
is the variant that handler expects. -/
inductive EventPayload where
  | newHeaderBlock (headerBlockId : Nat)
  | staked (signer : List Nat) (validatorId : Nat)
  | unstakeInit (user : List Nat) (validatorId : Nat)
  | stakeUpdate (validatorId : Nat)
  | signerChange (validatorId : Nat) (oldSigner newSigner : List Nat)
  | reStaked (validatorId : Nat)
  | jailed (validatorId : Nat)
  | stateSynced (id : Nat) (contractAddress : List Nat)
  | topUpFee (validatorId : Nat)
deriving DecidableEq

/-- A main-chain log as the syncer consumes it: first topic (event
selector), transaction hash, log index, and its decoded payload
(`none` when `UnpackLog` fails for the dispatched event kind). -/
structure Log where
  topic0 : Nat
  txHash : List Nat
  index : Nat
  payload : Option EventPayload
deriving DecidableEq

/-- A message handed to `queueConnector.BroadcastToHeimdall`, one
constructor per message type built in `syncer.go`. -/
inductive BroadcastMsg where
  | checkpointAck (proposer : List Nat) (headerBlockId : Nat) (txHash : List Nat) (logIndex : Nat)
  | validatorJoin (fromAddr : List Nat) (validatorId : Nat) (pubkey : List Nat) (txHash : List Nat) (logIndex : Nat)
  | validatorExit (fromAddr : List Nat) (validatorId : Nat) (txHash : List Nat) (logIndex : Nat)
  | stakeUpdateMsg (fromAddr : List Nat) (validatorId : Nat) (txHash : List Nat) (logIndex : Nat)
  | signerUpdate (fromAddr : List Nat) (validatorId : Nat) (newPubkey : List Nat) (txHash : List Nat) (logIndex : Nat)
  | eventRecord (fromAddr : List Nat) (txHash : List Nat) (logIndex : Nat) (id : Nat) (chainId : String)
  | topup (fromAddr : List Nat) (validatorId : Nat) (txHash : List Nat) (logIndex : Nat)
deriving DecidableEq

/-- Process-wide identity and configuration the handlers read through
the `helper` package: `helper.GetAddress()`, `helper.GetPubKey()`,
`helper.GetFromAddress(cliCtx)`, the local validator id, and
`helper.GetConfig().BorChainID`. -/
structure SyncerEnv where
  localAddress : List Nat
  localPubKey : List Nat
  fromAddress : List Nat
  localValidatorId : Nat
  borChainID : String

/-- Modelled from the spec: the helper `isEventSender` is not under
`src/` (only its call sites are).  Per the spec's gate table, a
staking-mutation handler "produces a message only if the event's
subject is this validator": the gate compares the event's
`validatorId` with the local validator identity. -/
def isEventSender (env : SyncerEnv) (eventValidatorId : Nat) : Bool :=
  eventValidatorId == env.localValidatorId

/-- Handler `processCheckpointEvent`: decode a `NewHeaderBlock` log
and enqueue `MsgCheckpointAck(from, headerBlockId, txHash, logIndex)`
unconditionally. -/
def processCheckpointEvent (env : SyncerEnv) (vLog : Log) : List BroadcastMsg :=
  match vLog.payload with
  | some (.newHeaderBlock headerBlockId) =>
    [.checkpointAck env.fromAddress (u64 headerBlockId) vLog.txHash vLog.index]
  | _ => []

/-- Handler `processStakedEvent`: decode a `Staked` log and, when
`isEventSender(cliCtx, event.ValidatorId.Uint64())` holds, enqueue
`MsgValidatorJoin(address, validatorId, pubkey, txHash, logIndex)`. -/
def processStakedEvent (env : SyncerEnv) (vLog : Log) : List BroadcastMsg :=
  match vLog.payload with
  | some (.staked _signer validatorId) =>
    if isEventSender env (u64 validatorId) then
      [.validatorJoin env.localAddress (u64 validatorId) env.localPubKey vLog.txHash vLog.index]
    else []
  | _ => []

/-- Handler `processUnstakeInitEvent`: gated by `isEventSender`,
enqueues `MsgValidatorExit(address, validatorId, txHash, logIndex)`. -/
def processUnstakeInitEvent (env : SyncerEnv) (vLog : Log) : List BroadcastMsg :=
  match vLog.payload with
  | some (.unstakeInit _user validatorId) =>
    if isEventSender env (u64 validatorId) then
      [.validatorExit env.localAddress (u64 validatorId) vLog.txHash vLog.index]
    else []
  | _ => []

/-- Handler `processStakeUpdateEvent`: gated by `isEventSender`,
enqueues `MsgStakeUpdate(address, validatorId, txHash, logIndex)`. -/
def processStakeUpdateEvent (env : SyncerEnv) (vLog : Log) : List BroadcastMsg :=
  match vLog.payload with
  | some (.stakeUpdate validatorId) =>
    if isEventSender env (u64 validatorId) then
      [.stakeUpdateMsg env.localAddress (u64 validatorId) vLog.txHash vLog.index]
    else []
  | _ => []

/-- Handler `processSignerChangeEvent`: when
`bytes.Compare(event.NewSigner.Bytes(), helper.GetAddress()) == 0`,
enqueues `MsgSignerUpdate(address, validatorId, pubkey, txHash,
logIndex)`. -/
def processSignerChangeEvent (env : SyncerEnv) (vLog : Log) : List BroadcastMsg :=
  match vLog.payload with
  | some (.signerChange validatorId _oldSigner newSigner) =>
    if newSigner == env.localAddress then
      [.signerUpdate env.localAddress (u64 validatorId) env.localPubKey vLog.txHash vLog.index]
    else []
  | _ => []

/-- Handler `processReStakedEvent`: decodes and logs only; the message
construction is commented out in the source, so nothing is enqueued. -/
def processReStakedEvent (_env : SyncerEnv) (_vLog : Log) : List BroadcastMsg := []

/-- Handler `processJailedEvent`: decodes and logs only; the message
construction is commented out in the source, so nothing is enqueued. -/
def processJailedEvent (_env : SyncerEnv) (_vLog : Log) : List BroadcastMsg := []

/-- Handler `processStateSyncedEvent`: decode a `StateSynced` log and
enqueue `MsgEventRecord(address, txHash, logIndex, id, borChainID)`
unconditionally. -/
def processStateSyncedEvent (env : SyncerEnv) (vLog : Log) : List BroadcastMsg :=
  match vLog.payload with
  | some (.stateSynced id _contractAddress) =>
    [.eventRecord env.localAddress vLog.txHash vLog.index (u64 id) env.borChainID]
  | _ => []

/-- Handler `processTopupFeeEvent`: decode a `TopUpFee` log and
enqueue `MsgTopup(from, validatorId, txHash, logIndex)`
unconditionally. -/
def processTopupFeeEvent (env : SyncerEnv) (vLog : Log) : List BroadcastMsg :=
  match vLog.payload with
  | some (.topUpFee validatorId) =>
    [.topup env.fromAddress (u64 validatorId) vLog.txHash vLog.index]
  | _ => []

/-- An ABI's event table, mapping an event selector (the log's first
topic) to the event name.  Modelled from the spec for the helper
`EventByID` (not under `src/`): it returns the ABI event whose ID
equals the topic, or nil. -/
def ABI : Type := Nat → Option String

/-- The `switch selectedEvent.Name` dispatch inside `processHeader`'s
log loop.  The `Staked` case is commented out in the source
("TODO remove post new bridge design"), so a `Staked` log falls
through to the empty default; `Withdraw` is likewise commented out. -/
def dispatchByName (env : SyncerEnv) (name : String) (vLog : Log) : List BroadcastMsg :=
  if name = "NewHeaderBlock" then processCheckpointEvent env vLog
  else if name = "UnstakeInit" then processUnstakeInitEvent env vLog
  else if name = "StakeUpdate" then processStakeUpdateEvent env vLog
  else if name = "SignerChange" then processSignerChangeEvent env vLog
  else if name = "ReStaked" then processReStakedEvent env vLog
  else if name = "Jailed" then processJailedEvent env vLog
  else if name = "StateSynced" then processStateSyncedEvent env vLog
  else if name = "TopUpFee" then processTopupFeeEvent env vLog
  else []

/-- The inner `for _, abiObject := range syncer.abis` loop of
`processHeader`: the first ABI whose event table contains the log's
topic handles the log (the loop breaks after the switch); later ABIs
are not consulted, and an unknown topic produces nothing. -/
def processLog (env : SyncerEnv) : List ABI → Log → List BroadcastMsg
  | [], _ => []
  | abiObject :: rest, vLog =>
    match abiObject vLog.topic0 with
    | some name => dispatchByName env name vLog
    | none => processLog env rest vLog

/-- The loop condition of the queue drain in `processHeader`:
a buffered header is kept (the loop breaks) when
`h.Time+syncer.txConfirmationTime > currentTime`; both operands are
`uint64`, so the addition wraps. -/
def headerConfirmed (txConfirmationTime currentTime : Nat) (h : LightHeader) : Bool :=
  add64 h.time txConfirmationTime ≤ currentTime

/-- The queue drain loop of `processHeader`: pop headers from the
front while confirmed, recording the first popped number in `start`
and the last popped number in `end`; stop at the first unconfirmed
header, leaving it and everything behind it queued. -/
def drainLoop (txConfirmationTime currentTime : Nat) :
    List LightHeader → Option Nat → Option Nat →
      List LightHeader × Option Nat × Option Nat
  | [], start, end_ => ([], start, end_)
  | h :: rest, start, end_ =>
    if headerConfirmed txConfirmationTime currentTime h then
      drainLoop txConfirmationTime currentTime rest
        (if start.isNone then some h.number else start) (some h.number)
    else (h :: rest, start, end_)

/-- State owned by the syncer that `processHeader` reads and writes:
the in-memory header queue and the `"last-block"` value in the bridge
storage (`none` when `Has` reports the key absent). -/
structure SyncerState where
  headerQueue : List LightHeader
  lastBlockStore : Option String
deriving DecidableEq

/-- Observable outcome of one `processHeader` run: the final queue and
stored cursor, the drained `(start, end)` pair when headers were
popped, the `(fromBlock, toBlock)` of the `FilterLogs` query when one
was issued, and the enqueued broadcast messages in order. -/
structure ProcessResult where
  headerQueue : List LightHeader
  lastBlockStore : Option String
  drained : Option (Nat × Nat)
  queried : Option (Nat × Nat)
  messages : List BroadcastMsg
deriving DecidableEq

/-- The cursor resolution of `processHeader`: `fromBlock` defaults to
the first popped number (`start`); when a `"last-block"` value is
stored and parses as a decimal `uint64` (`strconv.ParseUint`),
`fromBlock` becomes `result+1` unconditionally — the preceding
`if result > fromBlock { fromBlock = result }` guard is dead, its
assignment being immediately overwritten by `fromBlock = result + 1`.
The storage `Get` that follows a successful `Has` is modelled as
always succeeding. -/
def resolveFromBlock (lastBlockStore : Option String) (start : Nat) : Nat :=
  match lastBlockStore with
  | some stored =>
    match parseUint64 stored with
    | some result => add64 result 1
    | none => start
  | none => start

/-- The syncer's `processHeader`.  The arriving header is appended to
the queue; the drain loop pops the confirmed front.  If nothing was
popped it returns.  Otherwise the query range is `fromBlock =
resolveFromBlock(store, start)` to `toBlock = end`; the cursor is
`Put` as the decimal of `toBlock` BEFORE `FilterLogs` is called; on a
query error it returns (with the cursor already advanced), else every
returned log is dispatched through the ABI tables. -/
def processHeader (env : SyncerEnv) (abis : List ABI) (txConfirmationTime : Nat)
    (st : SyncerState) (newHeader : LightHeader) (currentTime : Nat)
    (filterLogsResult : Except Unit (List Log)) : ProcessResult :=
  let queue := st.headerQueue ++ [newHeader]
  match drainLoop txConfirmationTime currentTime queue none none with
  | (remaining, some start, some end_) =>
    let fromBlock := resolveFromBlock st.lastBlockStore start
    let toBlock := end_
    let store' := some (toString toBlock)
    match filterLogsResult with
    | .error _ =>
      { headerQueue := remaining, lastBlockStore := store',
        drained := some (start, end_), queried := some (fromBlock, toBlock),
        messages := [] }
    | .ok logs =>
      { headerQueue := remaining, lastBlockStore := store',
        drained := some (start, end_), queried := some (fromBlock, toBlock),
        messages := logs.flatMap (processLog env abis) }
  | (remaining, _, _) =>
    { headerQueue := remaining, lastBlockStore := st.lastBlockStore,
      drained := none, queried := none, messages := [] }

/-!
Section: Span decider (`bridge/pier/span.go`)
-/

/-- A span as fetched from `GET /bor/latest-span` (fields the decider
uses). -/
structure Span where
  id : Nat
  startBlock : Nat
  endBlock : Nat
deriving DecidableEq

/-- The `bor.MsgProposeSpan` body deserialized from the next-span-info
REST response. -/
structure MsgProposeSpan where
  id : Nat
  startBlock : Nat
  endBlock : Nat
  chainID : String
deriving DecidableEq

/-- The span service's `fetchNextSpanDetails(start)`: issue
`GET NextSpanInfoURL` with query parameter
`start_block=strconv.Itoa(int(start))` (plus `chain_id` and
`proposer`) and unmarshal the result into a `MsgProposeSpan`.  The
REST collaborator is abstracted as `api`, mapping the requested
`start_block` to the deserialized message (`none` on fetch or
unmarshal error). -/
def fetchNextSpanDetails (api : Nat → Option MsgProposeSpan) (start : Nat) :
    Option MsgProposeSpan :=
  api start

/-- Observable outcome of one `propose` tick: the `start_block`
requested from the next-span-info endpoint (when the decider decided
to propose) and the message handed to sign-and-broadcast (when the
fetch succeeded). -/
structure SpanProposeResult where
  requestedStart : Option Nat
  broadcasted : Option MsgProposeSpan
deriving DecidableEq

/-- The span service's `propose`, after `lastSpan` (REST) and
`currentBlock` (child chain, `int64`) have been fetched:

```go
if currentBlock > int64(lastSpan.StartBlock) {
    s.ProposeNewSpan(lastSpan.EndBlock + 1)
}
```

`ProposeNewSpan(start)` fetches the next-span message for `start` and
broadcasts it; when the fetch fails nothing is sent.  The `uint64`
increment of `lastSpan.EndBlock` wraps. -/
def propose (api : Nat → Option MsgProposeSpan) (lastSpan : Span)
    (currentBlock : Int) : SpanProposeResult :=
  if currentBlock > toInt64 lastSpan.startBlock then
    let start := add64 lastSpan.endBlock 1
    { requestedStart := some start, broadcasted := fetchNextSpanDetails api start }
  else
    { requestedStart := none, broadcasted := none }

/-- Lowercase hexadecimal digit character, as produced by Go's
`encoding/hex` (`0`–`9`, `a`–`f`). -/
def hexDigit (n : Nat) : Char :=
  if n < 10 then Char.ofNat (48 + n) else Char.ofNat (87 + n)

/-- Go's `hex.EncodeToString` of a byte slice: two lowercase hex
digits per byte, bytes in order. -/
def hexEncode (bs : List Nat) : List Char :=
  bs.flatMap (fun b => [hexDigit (b % 256 / 16), hexDigit (b % 256 % 16)])

/-- Value of a lowercase hexadecimal digit character, `none` for any
other character. -/
def hexDigitVal (c : Char) : Option Nat :=
  if 48 ≤ c.toNat ∧ c.toNat ≤ 57 then some (c.toNat - 48)
  else if 97 ≤ c.toNat ∧ c.toNat ≤ 102 then some (c.toNat - 87)
  else none

/-- Decoder of a lowercase-hex character string back into bytes (two
characters per byte); `none` on odd length or a non-hex character. -/
def hexDecode : List Char → Option (List Nat)
  | [] => some []
  | [_] => none
  | c1 :: c2 :: rest =>
    match hexDigitVal c1, hexDigitVal c2, hexDecode rest with
    | some hi, some lo, some bs => some ((16 * hi + lo) :: bs)
    | _, _, _ => none

/-- Argument tuple of the root-chain `commitSpan` relay call made at
the end of `DispatchProposal`. -/
structure CommitSpanCall where
  voteBytes : List Nat
  sigs : List Nat
  txBytes : List Nat
  proof : List Char
deriving DecidableEq

/-- The pure tail of `DispatchProposal`: with `tx.Tx` the committed
consensus-chain transaction bytes returned by
`helper.QueryTxWithProof` and `proofList` the merkle proof's sibling
hashes in proof order (modelled from the spec for
`helper.GetMerkleProofList`, which is not under `src/`), the contract
is called as

```go
s.contractConnector.CommitSpan(helper.GetVoteBytes(votes, chainID), sigs, tx.Tx[4:], []byte(strings.Join(result, "")))
```

where `result` collects `hex.EncodeToString(e)` for each `e` in
`proofList`.  The Go slice `tx.Tx[4:]` requires `len(tx.Tx) >= 4`
(it panics below that); it is totalized here as `List.drop 4`. -/
def dispatchProposalCall (voteBytes sigs : List Nat) (txTx : List Nat)
    (proofList : List (List Nat)) : CommitSpanCall :=
  { voteBytes := voteBytes, sigs := sigs,
    txBytes := txTx.drop 4,
    proof := (proofList.map hexEncode).flatten }

/-!
Section: Checkpoint genesis validation (`checkpoint/types/genesis.go`)
-/

/-- A checkpoint block header as stored in the genesis `Headers` list
(fields irrelevant to validation are omitted by the claims; the
start/end blocks stand in for the record). -/
structure CheckpointBlockHeader where
  startBlock : Nat
  endBlock : Nat
deriving DecidableEq

/-- The checkpoint module's `GenesisState`.  The `Params` type and its
`Validate` method are not under `src/`, so the params value is an
abstract type `P` and its validation an abstract function passed to
`ValidateGenesis`. -/
structure GenesisState (P : Type) where
  params : P
  bufferedCheckpoint : Option CheckpointBlockHeader
  lastNoACK : Nat
  ackCount : Nat
  headers : List CheckpointBlockHeader

/-- The checkpoint module's `ValidateGenesis`:

```go
if err := data.Params.Validate(); err != nil { return err }
if len(data.Headers) != 0 {
    if int(data.AckCount) != len(data.Headers) {
        return errors.New("Incorrect state in state-dump , Please Check")
    }
}
return nil
```

`data.AckCount` is `uint64` and is compared through Go's `int` cast
(64-bit). -/
def ValidateGenesis {P : Type} (paramsValidate : P → Option String)
    (data : GenesisState P) : Option String :=
  match paramsValidate data.params with
  | some err => some err
  | none =>
    if data.headers.length ≠ 0 then
      if toGoInt data.ackCount ≠ (data.headers.length : Int) then
        some "Incorrect state in state-dump , Please Check"
      else none
    else none

/-- Discriminator for `MsgValidatorJoin` broadcast messages. -/
def isValidatorJoinMsg : BroadcastMsg → Bool
  | .validatorJoin _ _ _ _ _ => true
  | _ => false

/-!
Section: Helper lemmas
-/

/-- Wrap removal for `u64` on in-range values. -/
theorem u64_of_lt {n : Nat} (h : n < U64MOD) : u64 n = n :=
  Nat.mod_eq_of_lt h

/-- Wrap removal for `add64` on in-range sums. -/
theorem add64_of_lt {a b : Nat} (h : a + b < U64MOD) : add64 a b = a + b :=
  Nat.mod_eq_of_lt h

/-- Wrap removal for `sub64` when the subtraction does not underflow. -/
theorem sub64_of_le {a b : Nat} (ha : a < U64MOD) (hb : b ≤ a) :
    sub64 a b = a - b := by
  unfold sub64
  rw [Nat.mod_eq_of_lt ha, Nat.mod_eq_of_lt (lt_of_le_of_lt hb ha)]
  rw [show a + U64MOD - b = (a - b) + U64MOD by omega, Nat.add_mod_right]
  exact Nat.mod_eq_of_lt (by omega)

/-- Value of `toInt64` on small values. -/
theorem toInt64_of_lt {v : Nat} (h : v < 2 ^ 63) : toInt64 v = (v : Int) := by
  have hv : v < U64MOD := lt_trans h (by norm_num [U64MOD])
  unfold toInt64
  rw [Nat.mod_eq_of_lt hv, if_pos h]
  rw [Int.emod_eq_of_lt (by positivity) (by exact_mod_cast hv)]

/-- The signed 64-bit wrap is the identity inside the `int64` range. -/
theorem wrap64s_of_bounds {z : Int} (h1 : -(2 ^ 63) ≤ z) (h2 : z < 2 ^ 63) :
    wrap64s z = z := by
  unfold wrap64s
  rw [Int.emod_eq_of_lt (by omega) (by norm_num [U64MOD]; omega)]
  omega

/-- Any result of `isForcePushNeeded` whose `updated` flag is `false`
passes `start` and `end` through unchanged. -/
theorem isForcePushNeeded_not_updated (cfg : CheckpointConfig)
    (start end_ diff latestChildBlock : Nat) (lastCheckpointTime currentTime : Int)
    (h : (isForcePushNeeded cfg start end_ diff latestChildBlock lastCheckpointTime currentTime).2.2 = false) :
    isForcePushNeeded cfg start end_ diff latestChildBlock lastCheckpointTime currentTime =
      (start, end_, false) := by
  unfold isForcePushNeeded at h ⊢
  by_cases hc : end_ = 0 ∨ end_ = start ∨ 0 < diff ∧ diff < cfg.avgCheckpointLength
  · rw [if_pos hc] at h ⊢
    by_cases ht : wrap64s (currentTime - lastCheckpointTime) > toInt64 (mul64 cfg.maxCheckpointLength 2)
    · rw [if_pos ht] at h; simp at h
    · rw [if_neg ht]
  · rw [if_neg hc]

/-- The queue left by the drain loop is the queue with its confirmed
front dropped. -/
theorem drainLoop_fst (conf now : Nat) :
    ∀ (q : List LightHeader) (s e : Option Nat),
      (drainLoop conf now q s e).1 = q.dropWhile (headerConfirmed conf now) := by
  intro q
  induction q with
  | nil => intro s e; simp [drainLoop]
  | cons h t ih =>
    intro s e
    by_cases hc : headerConfirmed conf now h
    · simp [drainLoop, hc, List.dropWhile_cons, ih]
    · simp [drainLoop, hc, List.dropWhile_cons]

/-- The `start` value computed by the drain loop: the number of the
first popped header (the popped headers being the confirmed front),
unless the accumulator was already set. -/
theorem drainLoop_start (conf now : Nat) :
    ∀ (q : List LightHeader) (s e : Option Nat),
      (drainLoop conf now q s e).2.1 =
        (match s with
         | some v => some v
         | none => ((q.takeWhile (headerConfirmed conf now)).head?).map LightHeader.number) := by
  intro q
  induction q with
  | nil => intro s e; cases s <;> simp [drainLoop]
  | cons h t ih =>
    intro s e
    by_cases hc : headerConfirmed conf now h
    · cases s <;> simp [drainLoop, hc, List.takeWhile_cons, ih]
    · cases s <;> simp [drainLoop, hc, List.takeWhile_cons]

/-- The `end` value computed by the drain loop: the number of the last
popped header, or the accumulator when nothing is popped. -/
theorem drainLoop_last (conf now : Nat) :
    ∀ (q : List LightHeader) (s e : Option Nat),
      (drainLoop conf now q s e).2.2 =
        (match (q.takeWhile (headerConfirmed conf now)).getLast? with
         | some h => some h.number
         | none => e) := by
  intro q
  induction q with
  | nil => intro s e; simp [drainLoop]
  | cons h t ih =>
    intro s e
    by_cases hc : headerConfirmed conf now h
    · rw [List.takeWhile_cons, if_pos hc]
      cases htw : t.takeWhile (headerConfirmed conf now) with
      | nil =>
        simp [drainLoop, hc, ih, htw, List.getLast?_singleton]
      | cons c cs =>
        rw [List.getLast?_cons_cons]
        simp only [drainLoop, hc, if_pos, ih, htw]
        obtain ⟨x, hx⟩ := Option.isSome_iff_exists.mp
          (List.getLast?_isSome.mpr (by simp) : (c :: cs).getLast?.isSome)
        rw [hx]
    · rw [List.takeWhile_cons, if_neg hc]
      simp [drainLoop, hc]

/-- One-shot characterization of the drain loop as it is invoked by
`processHeader` (both accumulators start at `nil`). -/
theorem drainLoop_run (conf now : Nat) (q : List LightHeader) :
    drainLoop conf now q none none =
      (q.dropWhile (headerConfirmed conf now),
       ((q.takeWhile (headerConfirmed conf now)).head?).map LightHeader.number,
       ((q.takeWhile (headerConfirmed conf now)).getLast?).map LightHeader.number) := by
  refine Prod.ext (drainLoop_fst conf now q none none) (Prod.ext ?_ ?_)
  · exact drainLoop_start conf now q none none
  · rw [drainLoop_last conf now q none none]
    cases (q.takeWhile (headerConfirmed conf now)).getLast? <;> rfl

/-- The head of `dropWhile` fails the predicate. -/
theorem head_dropWhile_false {α : Type} (p : α → Bool) :
    ∀ (l : List α) (x : α), (l.dropWhile p).head? = some x → p x = false := by
  intro l
  induction l with
  | nil => intro x h; simp [List.dropWhile] at h
  | cons a t ih =>
    intro x h
    rw [List.dropWhile_cons] at h
    by_cases hp : p a
    · rw [if_pos hp] at h; exact ih x h
    · rw [if_neg hp] at h
      simp at h
      subst h
      exact Bool.eq_false_iff.mpr hp

/-- A `processHeader` run in which the drain pops nothing: the state
is unchanged apart from the appended header, and no query, drain range
or message is produced. -/
theorem processHeader_no_confirmed (env : SyncerEnv) (abis : List ABI) (conf : Nat)
    (st : SyncerState) (newHeader : LightHeader) (now : Nat) (flr : Except Unit (List Log))
    (htw : (st.headerQueue ++ [newHeader]).takeWhile (headerConfirmed conf now) = []) :
    processHeader env abis conf st newHeader now flr =
      { headerQueue := st.headerQueue ++ [newHeader],
        lastBlockStore := st.lastBlockStore,
        drained := none, queried := none, messages := [] } := by
  have hq : (st.headerQueue ++ [newHeader]).dropWhile (headerConfirmed conf now) =
      st.headerQueue ++ [newHeader] := by
    conv_rhs => rw [← List.takeWhile_append_dropWhile (p := headerConfirmed conf now)
      (l := st.headerQueue ++ [newHeader])]
    rw [htw, List.nil_append]
  simp only [processHeader]
  rw [drainLoop_run, htw, hq]
  rfl

/-- A `processHeader` run in which the drain pops a non-empty block of
headers: all observable fields, spelled out. -/
theorem processHeader_scan (env : SyncerEnv) (abis : List ABI) (conf : Nat)
    (st : SyncerState) (newHeader : LightHeader) (now : Nat) (flr : Except Unit (List Log))
    (hd lst : LightHeader)
    (hhd : ((st.headerQueue ++ [newHeader]).takeWhile (headerConfirmed conf now)).head? = some hd)
    (hlst : ((st.headerQueue ++ [newHeader]).takeWhile (headerConfirmed conf now)).getLast? = some lst) :
    processHeader env abis conf st newHeader now flr =
      { headerQueue := (st.headerQueue ++ [newHeader]).dropWhile (headerConfirmed conf now),
        lastBlockStore := some (toString lst.number),
        drained := some (hd.number, lst.number),
        queried := some (resolveFromBlock st.lastBlockStore hd.number, lst.number),
        messages := match flr with
          | .error _ => []
          | .ok logs => logs.flatMap (processLog env abis) } := by
  simp only [processHeader]
  rw [drainLoop_run, hhd, hlst]
  cases flr <;> rfl

/-!
Section: Claim theorems — checkpoint decider
-/

/-- C4 (counter-evidence for the claimed idling): with on-chain
`end = 199` (so `start = 200`) and `latestChildBlock = 100` — the
underflow situation `latestChildBlock + 1 < start` — the `uint64`
computation `diff = latestChildBlock - start + 1` wraps to `2^64 - 99`,
which still satisfies `diff > 0`; `nextExpectedCheckpoint` therefore
does not treat it as "nothing new" but produces the range
`(200, 399)` (`end = start + MaxCheckpointLength - 1`) instead of
proposing no checkpoint. -/
theorem claim_C4_underflow_not_idle :
    nextExpectedCheckpoint
        { avgCheckpointLength := 100, maxCheckpointLength := 200, childBlockInterval := 10000 }
        { endBlock := 199, timeStamp := 0 } 100 0 = (200, 399, false) ∧
    100 + 1 < 200 := by
  constructor
  · decide
  · decide

/-- C7: `isForcePushNeeded` returns `updated = true` exactly when
(`end == 0` or `end == start` or `0 < diff < AvgCheckpointLength`)
and the checkpoint age `now - onChain.timestamp` exceeds
`2 * MaxCheckpointLength` seconds.  The bounds keep the configured
length and the two clock readings in their real-world ranges, so the
`uint64` product and the `int64` subtraction do not wrap. -/
theorem claim_C7_force_push_iff (cfg : CheckpointConfig)
    (start end_ diff latestChildBlock : Nat) (lastCheckpointTime currentTime : Int)
    (hmax : 2 * cfg.maxCheckpointLength < 2 ^ 63)
    (hlt0 : 0 ≤ lastCheckpointTime) (hlt1 : lastCheckpointTime < 2 ^ 62)
    (hct0 : 0 ≤ currentTime) (hct1 : currentTime < 2 ^ 62) :
    (isForcePushNeeded cfg start end_ diff latestChildBlock
        lastCheckpointTime currentTime).2.2 = true ↔
      ((end_ = 0 ∨ end_ = start ∨ (0 < diff ∧ diff < cfg.avgCheckpointLength)) ∧
        currentTime - lastCheckpointTime > 2 * (cfg.maxCheckpointLength : Int)) := by
  have hm : mul64 cfg.maxCheckpointLength 2 = 2 * cfg.maxCheckpointLength := by
    unfold mul64 U64MOD
    rw [Nat.mod_eq_of_lt (by omega)]
    ring
  have hw : wrap64s (currentTime - lastCheckpointTime) = currentTime - lastCheckpointTime :=
    wrap64s_of_bounds (by omega) (by omega)
  have hti : toInt64 (mul64 cfg.maxCheckpointLength 2) = (2 * cfg.maxCheckpointLength : Int) := by
    rw [hm, toInt64_of_lt hmax]
    push_cast
    ring
  unfold isForcePushNeeded
  by_cases hc : end_ = 0 ∨ end_ = start ∨ 0 < diff ∧ diff < cfg.avgCheckpointLength
  · rw [if_pos hc, hw, hti]
    by_cases ht : currentTime - lastCheckpointTime > (2 * cfg.maxCheckpointLength : Int)
    · rw [if_pos ht]
      simpa using ⟨hc, ht⟩
    · rw [if_neg ht]
      simp [hc, ht]
  · rw [if_neg hc]
    simp [hc]

/-- Witness for C7, on the spec's S4-style numbers: `start = end = 100`
(expected diff zero), `diff = 21 < Avg = 100`, checkpoint age
`1000 > 2 * Max = 400` — the force push fires. -/
theorem claim_C7_force_push_iff_witness :
    ((isForcePushNeeded { avgCheckpointLength := 100, maxCheckpointLength := 200, childBlockInterval := 10000 }
        100 100 21 120 0 1000).2.2 = true ↔
      (((100 : Nat) = 0 ∨ (100 : Nat) = 100 ∨ ((0 : Nat) < 21 ∧ (21 : Nat) < 100)) ∧
        (1000 : Int) - 0 > 2 * ((200 : Nat) : Int))) :=
  claim_C7_force_push_iff
    { avgCheckpointLength := 100, maxCheckpointLength := 200, childBlockInterval := 10000 }
    100 100 21 120 0 1000 (by decide) (by decide) (by decide) (by decide) (by decide)

/-- C5: when the child chain has reached the next start
(`start ≤ latestChildBlock`) and the force push does not fire
(the returned `updated` flag is `false`), `nextExpectedCheckpoint`
returns `start = onChain.end`, incremented by 1 when `onChain.end > 0`,
and `end = start + min(MaxCheckpointLength - 1, q - (1 if q positive
else 0))` where `q = diff - diff % AvgCheckpointLength` and
`diff = latestChildBlock - start + 1`.  The bounds keep the configured
lengths and block heights inside the `uint64` range so no wrap
occurs. -/
theorem claim_C5_propose_formula (cfg : CheckpointConfig) (head : CheckpointHead)
    (latestChildBlock : Nat) (currentTime : Int) (start diff q : Nat)
    (hs : start = if 0 < head.endBlock then head.endBlock + 1 else head.endBlock)
    (hd : diff = latestChildBlock - start + 1)
    (hq : q = diff - diff % cfg.avgCheckpointLength)
    (havg0 : 0 < cfg.avgCheckpointLength) (havgM : cfg.avgCheckpointLength < U64MOD)
    (hmax0 : 0 < cfg.maxCheckpointLength) (hmaxM : cfg.maxCheckpointLength < U64MOD)
    (hroom : latestChildBlock + cfg.maxCheckpointLength < U64MOD)
    (hstart : start ≤ latestChildBlock)
    (hnofp : (nextExpectedCheckpoint cfg head latestChildBlock currentTime).2.2 = false) :
    nextExpectedCheckpoint cfg head latestChildBlock currentTime =
      (start, start + min (cfg.maxCheckpointLength - 1) (q - (if 0 < q then 1 else 0)), false) := by
  subst hq
  subst hd
  subst hs
  have hlcbM : latestChildBlock < U64MOD := by omega
  have hebM : head.endBlock < U64MOD := by
    by_cases h : 0 < head.endBlock
    · rw [if_pos h] at hstart; omega
    · omega
  -- the effective start, with the branch on `onChain.end > 0` resolved
  set s : Nat := if 0 < head.endBlock then head.endBlock + 1 else head.endBlock with hs_def
  have hsM : s < U64MOD := lt_of_le_of_lt hstart hlcbM
  have e_start : (if u64 head.endBlock > 0 then add64 (u64 head.endBlock) 1
      else u64 head.endBlock) = s := by
    rw [u64_of_lt hebM, hs_def]
    by_cases h : 0 < head.endBlock
    · rw [if_pos h, if_pos h]
      refine add64_of_lt ?_
      have hseq : s = head.endBlock + 1 := by rw [hs_def, if_pos h]
      omega
    · rw [if_neg h, if_neg h]
  have e_diff : add64 (sub64 (u64 latestChildBlock) s) 1 = latestChildBlock - s + 1 := by
    rw [u64_of_lt hlcbM, sub64_of_le hlcbM hstart, add64_of_lt (by omega)]
  set d : Nat := latestChildBlock - s + 1 with hd_def
  have hd0 : 0 < d := by omega
  have hdM : d < U64MOD := by omega
  set qv : Nat := d - d % cfg.avgCheckpointLength with hq_def
  have e_q : sub64 d (d % u64 cfg.avgCheckpointLength) = qv := by
    rw [u64_of_lt havgM, sub64_of_le hdM (Nat.mod_le d cfg.avgCheckpointLength)]
  have hqvM : qv < U64MOD := by omega
  have e_e2 : (if qv > 0 then sub64 qv 1 else qv) = qv - (if 0 < qv then 1 else 0) := by
    by_cases h : 0 < qv
    · rw [if_pos h, if_pos h, sub64_of_le hqvM h]
    · rw [if_neg h, if_neg h]; omega
  set e2 : Nat := qv - (if 0 < qv then 1 else 0) with he2_def
  have e_cap : sub64 cfg.maxCheckpointLength 1 = cfg.maxCheckpointLength - 1 :=
    sub64_of_le hmaxM hmax0
  have e_e3 : (if e2 > cfg.maxCheckpointLength - 1 then cfg.maxCheckpointLength - 1 else e2) =
      min (cfg.maxCheckpointLength - 1) e2 := by
    by_cases h : e2 > cfg.maxCheckpointLength - 1
    · rw [if_pos h]; omega
    · rw [if_neg h]; omega
  set e3 : Nat := min (cfg.maxCheckpointLength - 1) e2 with he3_def
  have he3le : e3 ≤ cfg.maxCheckpointLength - 1 := min_le_left _ _
  have e_end : add64 e3 s = e3 + s := add64_of_lt (by omega)
  have hne : nextExpectedCheckpoint cfg head latestChildBlock currentTime =
      isForcePushNeeded cfg s (e3 + s) d (u64 latestChildBlock)
        (toInt64 head.timeStamp) currentTime := by
    simp only [nextExpectedCheckpoint]
    rw [e_start, e_diff, if_pos hd0, e_q, e_e2, e_cap, e_e3, e_end]
  rw [hne] at hnofp ⊢
  rw [isForcePushNeeded_not_updated cfg s (e3 + s) d (u64 latestChildBlock)
    (toInt64 head.timeStamp) currentTime hnofp]
  refine Prod.ext rfl (Prod.ext ?_ rfl)
  simp only
  omega

/-- Witness for C5, the spec's S3 scenario: `onChain.end = 99`,
`latestChildBlock = 260`, `Avg = 100`, `Max = 200`, checkpoint age 5
seconds (no force push) — the produced range is `(100, 199)`. -/
theorem claim_C5_propose_formula_witness :
    nextExpectedCheckpoint
        { avgCheckpointLength := 100, maxCheckpointLength := 200, childBlockInterval := 10000 }
        { endBlock := 99, timeStamp := 995 } 260 1000 = (100, 199, false) := by
  have h := claim_C5_propose_formula
    { avgCheckpointLength := 100, maxCheckpointLength := 200, childBlockInterval := 10000 }
    { endBlock := 99, timeStamp := 995 } 260 1000 100 161 100
    (by decide) (by decide) (by decide) (by decide) (by decide) (by decide) (by decide)
    (by decide) (by decide) (by decide)
  rw [h]
  decide

/-!
Section: Claim theorems — syncer
-/

/-- No case of the dispatch switch builds a `validatorJoin` message:
`processStakedEvent` is the only producer of one and its case is
commented out of the switch. -/
theorem dispatchByName_no_join (env : SyncerEnv) (name : String) (vLog : Log) :
    ∀ m ∈ dispatchByName env name vLog, isValidatorJoinMsg m = false := by
  intro m hm
  unfold dispatchByName processCheckpointEvent processUnstakeInitEvent processStakeUpdateEvent
    processSignerChangeEvent processReStakedEvent processJailedEvent processStateSyncedEvent
    processTopupFeeEvent at hm
  repeat' split at hm
  all_goals simp at hm
  all_goals (subst hm; rfl)

/-- The log loop of `processHeader` never emits a `validatorJoin`. -/
theorem processLog_no_join (env : SyncerEnv) :
    ∀ (abis : List ABI) (vLog : Log) (m : BroadcastMsg),
      m ∈ processLog env abis vLog → isValidatorJoinMsg m = false := by
  intro abis
  induction abis with
  | nil => intro vLog m hm; simp [processLog] at hm
  | cons a rest ih =>
    intro vLog m hm
    simp only [processLog] at hm
    cases hTop : a vLog.topic0 with
    | none =>
      rw [hTop] at hm
      exact ih vLog m hm
    | some name =>
      rw [hTop] at hm
      exact dispatchByName_no_join env name vLog m hm

/-- No run of `processHeader` emits a `validatorJoin` message. -/
theorem processHeader_no_join (env : SyncerEnv) (abis : List ABI) (conf : Nat)
    (st : SyncerState) (newHeader : LightHeader) (now : Nat) (flr : Except Unit (List Log)) :
    ∀ m ∈ (processHeader env abis conf st newHeader now flr).messages,
      isValidatorJoinMsg m = false := by
  intro m hm
  cases htw : (st.headerQueue ++ [newHeader]).takeWhile (headerConfirmed conf now) with
  | nil =>
    rw [processHeader_no_confirmed env abis conf st newHeader now flr htw] at hm
    simp at hm
  | cons c cs =>
    have hhd : ((st.headerQueue ++ [newHeader]).takeWhile (headerConfirmed conf now)).head?
        = some c := by rw [htw]; rfl
    obtain ⟨lst, hlst⟩ := Option.isSome_iff_exists.mp
      ((List.getLast?_isSome (l := c :: cs)).mpr (by simp) :
        ((c : LightHeader) :: cs).getLast?.isSome)
    have hlst' : ((st.headerQueue ++ [newHeader]).takeWhile (headerConfirmed conf now)).getLast?
        = some lst := by rw [htw]; exact hlst
    rw [processHeader_scan env abis conf st newHeader now flr c lst hhd hlst'] at hm
    cases flr with
    | error e => simp at hm
    | ok logs =>
      simp only [List.mem_flatMap] at hm
      obtain ⟨l, _, hml⟩ := hm
      exact processLog_no_join env abis l m hml

/-- C2 (counterexample): a `Staked` log whose `validatorId` equals the
local validator id (both 3), matched by an ABI that resolves its topic
to the `Staked` event, is scanned by `processHeader` — yet no message
at all is enqueued, because the `Staked` case of the dispatch switch
is commented out.  The claim's "at least one ValidatorJoin message is
produced" fails. -/
theorem claim_C2_cex :
    (processHeader
        { localAddress := [1], localPubKey := [2], fromAddress := [3],
          localValidatorId := 3, borChainID := "15001" }
        [fun t => if t = 11 then some "Staked" else none]
        0 { headerQueue := [], lastBlockStore := none }
        { number := 100, time := 0 } 100
        (.ok [{ topic0 := 11, txHash := [170], index := 3,
                payload := some (.staked [9] 3) }])).messages = [] ∧
    ((fun t => if t = 11 then some "Staked" else none) 11 = some "Staked") := by
  constructor
  · decide
  · decide

/-- C2 (amended): `processStakedEvent` itself gates correctly — it
enqueues exactly the `ValidatorJoin(validatorId, localPubkey, txHash,
logIndex)` message when the event's `validatorId` equals the local
validator identity and nothing otherwise — but the dispatch switch of
`processHeader` has the `Staked` case commented out, so no run of
`processHeader` ever emits a `ValidatorJoin` message. -/
theorem claim_C2_staked_gate_dispatch_disabled (env : SyncerEnv) (vLog : Log)
    (signer : List Nat) (vid : Nat)
    (hp : vLog.payload = some (.staked signer vid)) :
    ((BroadcastMsg.validatorJoin env.localAddress (u64 vid) env.localPubKey
        vLog.txHash vLog.index ∈ processStakedEvent env vLog) ↔
      u64 vid = env.localValidatorId) ∧
    (u64 vid ≠ env.localValidatorId → processStakedEvent env vLog = []) ∧
    (∀ (abis : List ABI) (conf : Nat) (st : SyncerState) (newHeader : LightHeader)
        (now : Nat) (flr : Except Unit (List Log)) (m : BroadcastMsg),
      m ∈ (processHeader env abis conf st newHeader now flr).messages →
        isValidatorJoinMsg m = false) := by
  refine ⟨?_, ?_, ?_⟩
  · simp only [processStakedEvent, hp, isEventSender]
    by_cases hg : u64 vid = env.localValidatorId
    · simp [hg]
    · simp [hg]
  · intro hne
    simp only [processStakedEvent, hp, isEventSender]
    simp [hne]
  · intro abis conf st newHeader now flr m hm
    exact processHeader_no_join env abis conf st newHeader now flr m hm

/-- Witness for C2's amended theorem: for the local id 3 and a decoded
`Staked` payload with `validatorId = 3`, the `ValidatorJoin` membership
in `processStakedEvent`'s output is equivalent to the identity gate. -/
theorem claim_C2_staked_gate_dispatch_disabled_witness :
    (BroadcastMsg.validatorJoin [1] (u64 3) [2] [170] 3 ∈
        processStakedEvent
          { localAddress := [1], localPubKey := [2], fromAddress := [3],
            localValidatorId := 3, borChainID := "15001" }
          { topic0 := 11, txHash := [170], index := 3,
            payload := some (.staked [9] 3) }) ↔
      u64 3 = (3 : Nat) :=
  (claim_C2_staked_gate_dispatch_disabled
    { localAddress := [1], localPubKey := [2], fromAddress := [3],
      localValidatorId := 3, borChainID := "15001" }
    { topic0 := 11, txHash := [170], index := 3, payload := some (.staked [9] 3) }
    [9] 3 rfl).1

/-- C6: for every queue state and arriving header, `processHeader`
dequeues exactly the maximal prefix of the buffered headers (with the
new header appended at the tail) whose `time + TxConfirmationTime ≤
now`; the remaining queue is the corresponding suffix, whose head (if
any) is unconfirmed.  When the prefix is empty nothing else happens:
no query, no cursor write, no message, the queue keeping only the
appended header.  When it is non-empty the drained scan range runs
from the first popped header's number to the last popped one's.  The
hypothesis keeps the `uint64` sums `time + TxConfirmationTime` from
wrapping. -/
theorem claim_C6_drain_maximal_confirmed (env : SyncerEnv) (abis : List ABI) (conf : Nat)
    (st : SyncerState) (newHeader : LightHeader) (now : Nat) (flr : Except Unit (List Log))
    (hnof : ∀ h ∈ st.headerQueue ++ [newHeader], h.time + conf < U64MOD) :
    ∃ popped rest,
      st.headerQueue ++ [newHeader] = popped ++ rest ∧
      (processHeader env abis conf st newHeader now flr).headerQueue = rest ∧
      (∀ h ∈ popped, h.time + conf ≤ now) ∧
      (∀ h, rest.head? = some h → now < h.time + conf) ∧
      (popped = [] →
        processHeader env abis conf st newHeader now flr =
          { headerQueue := st.headerQueue ++ [newHeader],
            lastBlockStore := st.lastBlockStore,
            drained := none, queried := none, messages := [] }) ∧
      (∀ hd lst, popped.head? = some hd → popped.getLast? = some lst →
        (processHeader env abis conf st newHeader now flr).drained =
          some (hd.number, lst.number)) := by
  refine ⟨(st.headerQueue ++ [newHeader]).takeWhile (headerConfirmed conf now),
    (st.headerQueue ++ [newHeader]).dropWhile (headerConfirmed conf now),
    (List.takeWhile_append_dropWhile ..).symm, ?_, ?_, ?_, ?_, ?_⟩
  · cases htw : (st.headerQueue ++ [newHeader]).takeWhile (headerConfirmed conf now) with
    | nil =>
      rw [processHeader_no_confirmed env abis conf st newHeader now flr htw]
      have h := List.takeWhile_append_dropWhile (p := headerConfirmed conf now)
        (l := st.headerQueue ++ [newHeader])
      rw [htw, List.nil_append] at h
      exact h.symm
    | cons c cs =>
      have hhd : ((st.headerQueue ++ [newHeader]).takeWhile (headerConfirmed conf now)).head?
          = some c := by rw [htw]; rfl
      obtain ⟨lst, hlst⟩ := Option.isSome_iff_exists.mp
        ((List.getLast?_isSome (l := c :: cs)).mpr (by simp) :
          ((c : LightHeader) :: cs).getLast?.isSome)
      have hlst' : ((st.headerQueue ++ [newHeader]).takeWhile
          (headerConfirmed conf now)).getLast? = some lst := by rw [htw]; exact hlst
      rw [processHeader_scan env abis conf st newHeader now flr c lst hhd hlst']
  · intro h hmem
    have hp : headerConfirmed conf now h = true := List.mem_takeWhile_imp hmem
    have hb := hnof h ((List.takeWhile_sublist _).mem hmem)
    unfold headerConfirmed add64 at hp
    rw [Nat.mod_eq_of_lt hb] at hp
    exact of_decide_eq_true hp
  · intro h hh
    have hp := head_dropWhile_false (headerConfirmed conf now)
      (st.headerQueue ++ [newHeader]) h hh
    have hb := hnof h ((List.dropWhile_sublist _).mem (List.mem_of_mem_head? (by rw [hh]; rfl)))
    unfold headerConfirmed add64 at hp
    rw [Nat.mod_eq_of_lt hb] at hp
    have := of_decide_eq_false hp
    omega
  · intro hpop
    exact processHeader_no_confirmed env abis conf st newHeader now flr hpop
  · intro hd lst hhd hlst
    rw [processHeader_scan env abis conf st newHeader now flr hd lst hhd hlst]

/-- Witness for C6, on the spec's S1-style numbers: headers 100 and
101 (times 1000 and 1001), confirmation delay 10, clock 1020 — both
headers are popped and the drained range is `[100, 101]`. -/
theorem claim_C6_drain_maximal_confirmed_witness :
    ∃ popped rest,
      ([{ number := 100, time := 1000 }] : List LightHeader) ++ [{ number := 101, time := 1001 }]
        = popped ++ rest ∧
      (processHeader
          { localAddress := [1], localPubKey := [2], fromAddress := [3],
            localValidatorId := 3, borChainID := "15001" }
          [] 10 { headerQueue := [{ number := 100, time := 1000 }], lastBlockStore := none }
          { number := 101, time := 1001 } 1020 (.ok [])).headerQueue = rest ∧
      (∀ h ∈ popped, h.time + 10 ≤ 1020) ∧
      (∀ h, rest.head? = some h → 1020 < h.time + 10) ∧
      (popped = [] →
        processHeader
          { localAddress := [1], localPubKey := [2], fromAddress := [3],
            localValidatorId := 3, borChainID := "15001" }
          [] 10 { headerQueue := [{ number := 100, time := 1000 }], lastBlockStore := none }
          { number := 101, time := 1001 } 1020 (.ok []) =
          { headerQueue := [{ number := 100, time := 1000 }, { number := 101, time := 1001 }],
            lastBlockStore := none,
            drained := none, queried := none, messages := [] }) ∧
      (∀ hd lst, popped.head? = some hd → popped.getLast? = some lst →
        (processHeader
            { localAddress := [1], localPubKey := [2], fromAddress := [3],
              localValidatorId := 3, borChainID := "15001" }
            [] 10 { headerQueue := [{ number := 100, time := 1000 }], lastBlockStore := none }
            { number := 101, time := 1001 } 1020 (.ok [])).drained =
          some (hd.number, lst.number)) :=
  claim_C6_drain_maximal_confirmed
    { localAddress := [1], localPubKey := [2], fromAddress := [3],
      localValidatorId := 3, borChainID := "15001" }
    [] 10 { headerQueue := [{ number := 100, time := 1000 }], lastBlockStore := none }
    { number := 101, time := 1001 } 1020 (.ok [])
    (by decide)

/-- C1 (counterexample): with cursor `"5"` stored, a confirmed header
10 and a `FilterLogs` call that errors, the value under `"last-block"`
after `processHeader` is `"10"` — the cursor was advanced by the `Put`
that precedes the query — and differs from its value `"5"` before the
call, contradicting "the cursor is not advanced on a log-query
failure".  The `queried` field shows the failing query was indeed
issued for `[6, 10]`. -/
theorem claim_C1_cex :
    (processHeader
        { localAddress := [1], localPubKey := [2], fromAddress := [3],
          localValidatorId := 3, borChainID := "15001" }
        [] 0 { headerQueue := [], lastBlockStore := some "5" }
        { number := 10, time := 0 } 100 (.error ())).lastBlockStore = some "10" ∧
    (processHeader
        { localAddress := [1], localPubKey := [2], fromAddress := [3],
          localValidatorId := 3, borChainID := "15001" }
        [] 0 { headerQueue := [], lastBlockStore := some "5" }
        { number := 10, time := 0 } 100 (.error ())).queried = some (6, 10) ∧
    some "10" ≠ some "5" := by
  refine ⟨?_, ?_, ?_⟩
  · decide
  · decide
  · decide

/-- C1 (amended): the cursor under `"last-block"` is `Put` BEFORE the
`FilterLogs` call, so whenever the drain pops a non-empty block of
headers the stored value after `processHeader` is the decimal of
`toBlock` — whether or not the log query errors.  A failed range is
therefore skipped (the cursor having moved past it), not re-covered. -/
theorem claim_C1_cursor_put_before_query (env : SyncerEnv) (abis : List ABI) (conf : Nat)
    (st : SyncerState) (newHeader : LightHeader) (now : Nat) (flr : Except Unit (List Log))
    (lst : LightHeader)
    (hlst : ((st.headerQueue ++ [newHeader]).takeWhile (headerConfirmed conf now)).getLast?
      = some lst) :
    (processHeader env abis conf st newHeader now flr).lastBlockStore
      = some (toString lst.number) := by
  have hne : ((st.headerQueue ++ [newHeader]).takeWhile (headerConfirmed conf now)) ≠ [] := by
    intro he
    rw [he] at hlst
    simp at hlst
  obtain ⟨hd, hhd⟩ := Option.isSome_iff_exists.mp (List.head?_isSome.mpr hne)
  rw [processHeader_scan env abis conf st newHeader now flr hd lst hhd hlst]

/-- Witness for C1's amended theorem: the run of the counterexample —
cursor `"5"`, confirmed header 10, erroring query — ends with the
cursor stored as `"10"`. -/
theorem claim_C1_cursor_put_before_query_witness :
    (processHeader
        { localAddress := [1], localPubKey := [2], fromAddress := [3],
          localValidatorId := 3, borChainID := "15001" }
        [] 0 { headerQueue := [], lastBlockStore := some "5" }
        { number := 10, time := 0 } 100 (.error ())).lastBlockStore
      = some (toString (10 : Nat)) :=
  claim_C1_cursor_put_before_query
    { localAddress := [1], localPubKey := [2], fromAddress := [3],
      localValidatorId := 3, borChainID := "15001" }
    [] 0 { headerQueue := [], lastBlockStore := some "5" }
    { number := 10, time := 0 } 100 (.error ())
    { number := 10, time := 0 } (by decide)

/-- C3 (failing-input evaluation): the effective `fromBlock` is NOT
`max(first confirmed, cursor+1)` and there is no early return when
`fromBlock > toBlock`.  First run: confirmed range `[100, 101]` with
stored cursor `"50"` — the claim expects `fromBlock = max(100, 51) =
100`, but the code queries `[51, 101]` (the guard
`if result > fromBlock` is dead).  Second run: stored cursor `"150"`,
so `fromBlock = 151 > toBlock = 101` — the claim expects no query at
all, but the code still issues `[151, 101]` (and rewinds the stored
cursor to `"101"`). -/
theorem claim_C3_from_block_not_max :
    (processHeader
        { localAddress := [1], localPubKey := [2], fromAddress := [3],
          localValidatorId := 3, borChainID := "15001" }
        [] 10 { headerQueue := [{ number := 100, time := 0 }], lastBlockStore := some "50" }
        { number := 101, time := 0 } 1000 (.ok [])).queried = some (51, 101) ∧
    (51 : Nat) ≠ max 100 (50 + 1) ∧
    (processHeader
        { localAddress := [1], localPubKey := [2], fromAddress := [3],
          localValidatorId := 3, borChainID := "15001" }
        [] 10 { headerQueue := [{ number := 100, time := 0 }], lastBlockStore := some "150" }
        { number := 101, time := 0 } 1000 (.ok [])).queried = some (151, 101) ∧
    (processHeader
        { localAddress := [1], localPubKey := [2], fromAddress := [3],
          localValidatorId := 3, borChainID := "15001" }
        [] 10 { headerQueue := [{ number := 100, time := 0 }], lastBlockStore := some "150" }
        { number := 101, time := 0 } 1000 (.ok [])).lastBlockStore = some "101" := by
  refine ⟨?_, ?_, ?_, ?_⟩
  · decide
  · decide
  · decide
  · decide

/-!
Section: Claim theorems — span decider and genesis
-/

/-- C8: the span decider requests the next-span proposal with
`start_block = lastSpan.endBlock + 1` exactly when it decides to
propose (`currentChildBlock > int64(lastSpan.startBlock)`), and —
assuming the next-span-info endpoint honours its interface, returning
a message whose `startBlock` equals the requested `start_block` — any
proposal it broadcasts has `startBlock = lastSpan.endBlock + 1`; no
span proposal with a different start block is ever produced. -/
theorem claim_C8_span_contiguity (api : Nat → Option MsgProposeSpan) (lastSpan : Span)
    (currentBlock : Int)
    (hapi : ∀ s m, api s = some m → m.startBlock = s) :
    ((propose api lastSpan currentBlock).requestedStart.isSome ↔
      currentBlock > toInt64 lastSpan.startBlock) ∧
    (∀ s, (propose api lastSpan currentBlock).requestedStart = some s →
      s = add64 lastSpan.endBlock 1) ∧
    (∀ m, (propose api lastSpan currentBlock).broadcasted = some m →
      m.startBlock = add64 lastSpan.endBlock 1) := by
  by_cases hc : currentBlock > toInt64 lastSpan.startBlock
  · simp only [propose, fetchNextSpanDetails]
    rw [if_pos hc]
    refine ⟨by simp [hc], ?_, ?_⟩
    · intro s hs
      simp at hs
      exact hs.symm
    · intro m hm
      simp at hm
      exact hapi _ m hm
  · simp only [propose, fetchNextSpanDetails]
    rw [if_neg hc]
    refine ⟨by simp [hc], ?_, ?_⟩
    · intro s hs
      simp at hs
    · intro m hm
      simp at hm

/-- Witness for C8, on the spec's S5 numbers: `lastSpan = {5, 1000,
1999}`, `currentChildBlock = 2500`, an endpoint answering with span
`{6, start, start+999}` — the decider proposes and the broadcast
message starts at `2000 = lastSpan.endBlock + 1`. -/
theorem claim_C8_span_contiguity_witness :
    ((propose (fun s => some { id := 6, startBlock := s, endBlock := s + 999, chainID := "15001" })
        { id := 5, startBlock := 1000, endBlock := 1999 } 2500).requestedStart.isSome ↔
      (2500 : Int) > toInt64 (1000 : Nat)) ∧
    ({ id := 6, startBlock := 2000, endBlock := 2999, chainID := "15001" } : MsgProposeSpan).startBlock
      = add64 1999 1 :=
  ⟨(claim_C8_span_contiguity
      (fun s => some { id := 6, startBlock := s, endBlock := s + 999, chainID := "15001" })
      { id := 5, startBlock := 1000, endBlock := 1999 } 2500
      (fun s m h => by injection h with h2; rw [← h2])).1,
   (claim_C8_span_contiguity
      (fun s => some { id := 6, startBlock := s, endBlock := s + 999, chainID := "15001" })
      { id := 5, startBlock := 1000, endBlock := 1999 } 2500
      (fun s m h => by injection h with h2; rw [← h2])).2.2
     { id := 6, startBlock := 2000, endBlock := 2999, chainID := "15001" } rfl⟩

/-- Each lowercase hex digit decodes back to its value. -/
theorem hexDigitVal_hexDigit : ∀ n < 16, hexDigitVal (hexDigit n) = some n := by decide

/-- Decoding undoes encoding in front of any remaining suffix. -/
theorem hexDecode_hexEncode_append (bs : List Nat) (rest : List Char)
    (hb : ∀ b ∈ bs, b < 256) :
    hexDecode (hexEncode bs ++ rest) =
      (hexDecode rest).map (fun tail => bs ++ tail) := by
  induction bs with
  | nil =>
    simp only [hexEncode, List.flatMap_nil, List.nil_append]
    cases hexDecode rest <;> rfl
  | cons b t ih =>
    have hb0 : b < 256 := hb b (by simp)
    have hbt : ∀ x ∈ t, x < 256 := fun x hx => hb x (by simp [hx])
    have hmod : b % 256 = b := Nat.mod_eq_of_lt hb0
    have e1 : hexDigitVal (hexDigit (b % 256 / 16)) = some (b / 16) := by
      rw [hmod]; exact hexDigitVal_hexDigit (b / 16) (by omega)
    have e2 : hexDigitVal (hexDigit (b % 256 % 16)) = some (b % 16) := by
      rw [hmod]; exact hexDigitVal_hexDigit (b % 16) (by omega)
    have iht := ih hbt
    simp only [hexEncode, List.flatMap_cons, List.cons_append, List.nil_append,
      List.append_assoc] at iht ⊢
    rw [hexDecode, e1, e2, iht]
    cases hexDecode rest with
    | none => rfl
    | some tail =>
      have hbb : 16 * (b / 16) + b % 16 = b := by omega
      simp [hbb]

/-- C9: the `commitSpan` relay call built by `DispatchProposal` passes
a transaction body equal to the committed consensus-chain transaction
bytes with exactly the first 4 bytes removed, and a proof argument
that is the concatenation, in proof order, of the hex encodings of the
merkle proof's sibling hashes — equal to the hex encoding of the
concatenated hashes and decodable back to exactly those bytes. -/
theorem claim_C9_commit_span_args (voteBytes sigs txTx : List Nat)
    (proofList : List (List Nat))
    (hlen : 4 ≤ txTx.length) (hb : ∀ bs ∈ proofList, ∀ b ∈ bs, b < 256) :
    (txTx.take 4 ++ (dispatchProposalCall voteBytes sigs txTx proofList).txBytes = txTx ∧
      (dispatchProposalCall voteBytes sigs txTx proofList).txBytes.length + 4 = txTx.length) ∧
    ((dispatchProposalCall voteBytes sigs txTx proofList).proof =
        hexEncode proofList.flatten ∧
      hexDecode (dispatchProposalCall voteBytes sigs txTx proofList).proof =
        some proofList.flatten) := by
  have hflat : (proofList.map hexEncode).flatten = hexEncode proofList.flatten := by
    clear hb
    induction proofList with
    | nil => rfl
    | cons a t ih2 =>
      simp only [List.map_cons, List.flatten_cons, List.flatten_cons] at ih2 ⊢
      rw [ih2]
      show hexEncode a ++ hexEncode t.flatten = hexEncode (a ++ t.flatten)
      simp [hexEncode, List.flatMap_append]
  have hbflat : ∀ b ∈ proofList.flatten, b < 256 := by
    intro b hb2
    obtain ⟨bs, hbs, hbb⟩ := List.mem_flatten.mp hb2
    exact hb bs hbs b hbb
  refine ⟨⟨?_, ?_⟩, ?_, ?_⟩
  · exact List.take_append_drop 4 txTx
  · simp only [dispatchProposalCall, List.length_drop]
    omega
  · exact hflat
  · show hexDecode (proofList.map hexEncode).flatten = some proofList.flatten
    rw [hflat]
    have h := hexDecode_hexEncode_append proofList.flatten [] hbflat
    rw [show hexDecode [] = some ([] : List Nat) from rfl] at h
    simpa using h

/-- Witness for C9: a six-byte committed transaction and two sibling
hashes `[0xab]` and `[0x01]` — the body drops the 4-byte prefix and
the proof argument is the hex text of the concatenated siblings. -/
theorem claim_C9_commit_span_args_witness :
    (([1, 2, 3, 4, 5, 6] : List Nat).take 4 ++
        (dispatchProposalCall [0] [1] [1, 2, 3, 4, 5, 6] [[171], [1]]).txBytes
        = [1, 2, 3, 4, 5, 6] ∧
      (dispatchProposalCall [0] [1] [1, 2, 3, 4, 5, 6] [[171], [1]]).txBytes.length + 4
        = ([1, 2, 3, 4, 5, 6] : List Nat).length) ∧
    ((dispatchProposalCall [0] [1] [1, 2, 3, 4, 5, 6] [[171], [1]]).proof =
        hexEncode ([[171], [1]] : List (List Nat)).flatten ∧
      hexDecode (dispatchProposalCall [0] [1] [1, 2, 3, 4, 5, 6] [[171], [1]]).proof =
        some ([[171], [1]] : List (List Nat)).flatten) :=
  claim_C9_commit_span_args [0] [1] [1, 2, 3, 4, 5, 6] [[171], [1]]
    (by decide) (by decide)

/-- The Go `int` cast of an in-range `uint64` equals a slice length
exactly when the underlying numbers are equal. -/
theorem toGoInt_eq_ofNat_iff {v n : Nat} (hv : v < U64MOD) (hn : n < 2 ^ 63) :
    toGoInt v = (n : Int) ↔ v = n := by
  unfold toGoInt toInt64
  rw [Nat.mod_eq_of_lt hv]
  have hmodInt : ((v : Int) % (U64MOD : Int)) = (v : Int) :=
    Int.emod_eq_of_lt (by positivity) (by exact_mod_cast hv)
  by_cases h : v < 2 ^ 63
  · rw [if_pos h, hmodInt]
    exact Nat.cast_inj
  · rw [if_neg h, hmodInt]
    constructor
    · intro he
      exfalso
      have hM : (U64MOD : Int) = 18446744073709551616 := by norm_num [U64MOD]
      omega
    · intro he
      omega

/-- C10: `ValidateGenesis` errors exactly when the params validation
fails or `Headers` is non-empty with `AckCount` different from the
header count; in particular any genesis state with an empty header
list and passing params validates, whatever its `AckCount`.  The
bounds are the `uint64` range of `AckCount` and the (64-bit Go `int`)
range of a slice length. -/
theorem claim_C10_validate_genesis_iff {P : Type} (paramsValidate : P → Option String)
    (data : GenesisState P)
    (hack : data.ackCount < U64MOD) (hlen : data.headers.length < 2 ^ 63) :
    (ValidateGenesis paramsValidate data).isSome ↔
      ((paramsValidate data.params).isSome ∨
        (data.headers ≠ [] ∧ data.ackCount ≠ data.headers.length)) := by
  unfold ValidateGenesis
  cases hpv : paramsValidate data.params with
  | some err => simp
  | none =>
    by_cases hh : data.headers.length ≠ 0
    · rw [if_pos hh]
      have hne : data.headers ≠ [] := by
        intro hnil
        rw [hnil] at hh
        exact hh rfl
      by_cases he : data.ackCount = data.headers.length
      · rw [if_neg (by simpa using (toGoInt_eq_ofNat_iff hack hlen).mpr he)]
        simp [he]
      · rw [if_pos (fun heq => he ((toGoInt_eq_ofNat_iff hack hlen).mp heq))]
        simp [hne, he]
    · rw [if_neg hh]
      have hnil : data.headers = [] := by
        cases hd : data.headers with
        | nil => rfl
        | cons a t => rw [hd] at hh; simp at hh
      simp [hnil]

/-- Witness for C10: empty header list, `AckCount = 5`, passing
params — `ValidateGenesis` accepts. -/
theorem claim_C10_validate_genesis_iff_witness :
    (ValidateGenesis (fun _ : Unit => (none : Option String))
        { params := (), bufferedCheckpoint := none, lastNoACK := 0, ackCount := 5,
          headers := [] }).isSome ↔
      (((fun _ : Unit => (none : Option String)) ()).isSome ∨
        (([] : List CheckpointBlockHeader) ≠ [] ∧
          (5 : Nat) ≠ ([] : List CheckpointBlockHeader).length)) :=
  claim_C10_validate_genesis_iff (fun _ : Unit => (none : Option String))
    { params := (), bufferedCheckpoint := none, lastNoACK := 0, ackCount := 5, headers := [] }
    (by decide) (by decide)
